import Mathlib

/-!
A shallow embedding of the logarithmic-decomposition intersection engine
(dit/log_decomp/intersection.py) and the PID adapter
(dit/pid/measures/ilogdec.py), together with spec-modelled versions of the
external collaborators they consume (the Distribution container and the
content, measure, get_n_atoms and upper_set helpers, whose modules are not
part of the sources), followed by theorems about the embedded functions.
-/

namespace Dit

/-- Modelled from the spec: the Distribution container (dit/npdist.py is not
among the sources): an ordered collection of named random variables together
with a pmf on outcome tuples. Only its variable structure feeds the lattice
constructions below. -/
structure Distribution where
  varNames : List String
  pmf : List (List String × ℚ)
  deriving DecidableEq

/-- An information atom of the redundancy lattice: a collection of variable
subsets (its generator sources). Atoms are immutable and compared by value. -/
structure Atom where
  sources : Finset (Finset String)
  deriving DecidableEq

/-- The order of an atom: the number of its generator components. -/
def Atom.order (a : Atom) : ℕ := a.sources.card

/-- The variables of a distribution, as a set of names. -/
def Distribution.vars (d : Distribution) : Finset String := d.varNames.toFinset

/-- Modelled from the spec: the full redundancy lattice of a distribution
(dit/log_decomp/combinatorics.py is not among the sources): every atom
generated by a nonempty collection of nonempty subsets of the variables. -/
def Distribution.allAtoms (d : Distribution) : Finset Atom :=
  ((d.vars.powerset.erase ∅).powerset.erase ∅).image Atom.mk

/-- Modelled from the spec: content(dist, group)
(dit/log_decomp/content.py is not among the sources): the atoms of the
lattice whose generator source sets are exactly covered by the group. -/
def content (d : Distribution) (group : List String) : Finset Atom :=
  d.allAtoms.filter (fun a => ∀ s ∈ a.sources, s ⊆ group.toFinset)

/-- The validated order argument: an integer, or the symbolic even / odd. -/
inductive AtomOrder where
  | exact (n : ℤ)
  | even
  | odd
  deriving DecidableEq

/-- Modelled from the spec: get_n_atoms(atom_set, order)
(dit/log_decomp/combinatorics.py is not among the sources): filter the set to
the atoms whose order matches (an exact integer, or an even or odd positive
integer). -/
def get_n_atoms (atom_set : Finset Atom) (order : AtomOrder) : Finset Atom :=
  match order with
  | .exact n => atom_set.filter (fun a => (a.order : ℤ) = n)
  | .even => atom_set.filter (fun a => 0 < a.order ∧ a.order % 2 = 0)
  | .odd => atom_set.filter (fun a => a.order % 2 = 1)

/-- Modelled from the spec: the is-above partial order of the redundancy
lattice (dit/log_decomp/combinatorics.py is not among the sources): an atom
lies above another when it is generated by every source of the other. -/
def Atom.above (a b : Atom) : Prop := b.sources ⊆ a.sources

instance (a b : Atom) : Decidable (a.above b) :=
  inferInstanceAs (Decidable (b.sources ⊆ a.sources))

/-- Modelled from the spec: upper_set(dist, atoms)
(dit/log_decomp/combinatorics.py is not among the sources): all lattice atoms
lying above some seed atom, the seed atoms included. -/
def upper_set (d : Distribution) (atoms : Finset Atom) : Finset Atom :=
  atoms ∪ d.allAtoms.filter (fun a => ∃ b ∈ atoms, a.above b)

/-- Modelled from the spec: the per-atom information contribution
(dit/log_decomp/content.py is not among the sources). The spec fixes the
aggregation shape of measure (a sum over the atom set, logarithms taken to
log_base, zero on the empty set, undefined for a base at most 1) but not the
per-atom formula, which is modelled here as the atom order scaled against the
base. -/
def atomContribution (d : Distribution) (a : Atom) (log_base : ℚ) : ℚ :=
  if 1 < log_base then (a.order : ℚ) * (d.pmf.map Prod.snd).sum / log_base else 0

/-- Modelled from the spec: measure(dist, atom_set, log_base)
(dit/log_decomp/content.py is not among the sources): sums the per-atom
contributions over the atom set; returns 0 on the empty set. -/
def measure (d : Distribution) (atom_set : Finset Atom) (log_base : ℚ) : ℚ :=
  atom_set.sum (fun a => atomContribution d a log_base)

/-- The Python exception kinds raised by the embedded functions. -/
inductive PyErr where
  | typeError (msg : String)
  | valueError (msg : String)
  | keyError (msg : String)
  deriving DecidableEq

/-- Error message of the dist type check. -/
def msgDist : String := "dist must be a dit distribution."

/-- Error message of the group-list type check. -/
def msgGroups : String := "list_of_rv_groups must be a list of lists of random variables."

/-- Error message of the order checks. -/
def msgOrder : String := "order must be either an integer, even or odd."

/-- Error message of the log-base type check. -/
def msgBase : String := "log_base must be an int or a float."

/-- Error message of popping from an empty set. -/
def msgPop : String := "pop from an empty set"

/-- weakly_shared_content(dist, list_of_rv_groups, order) after argument
validation: the per-group content sets are collected into a set of frozen
sets, one member is popped and intersected against the remainder (a KeyError
when the collection is empty), the intersection is order-filtered and the
upper set of the filtered atoms is returned. -/
def weakly_shared_content (d : Distribution) (list_of_rv_groups : List (List String))
    (order : AtomOrder) : Except PyErr (Finset Atom) :=
  let relevant_contents : Finset (Finset Atom) :=
    (list_of_rv_groups.map (fun group => content d group)).toFinset
  if h : relevant_contents.Nonempty then
    let intersection_set : Finset Atom := relevant_contents.inf' h id
    let filtered_atoms : Finset Atom := get_n_atoms intersection_set order
    Except.ok (upper_set d filtered_atoms)
  else
    Except.error (PyErr.keyError msgPop)

/-- weakly_shared(dist, list_of_rv_groups, order, log_base) after argument
validation: measure the weakly shared content. -/
def weakly_shared (d : Distribution) (list_of_rv_groups : List (List String))
    (order : AtomOrder) (log_base : ℚ) : Except PyErr ℚ :=
  (weakly_shared_content d list_of_rv_groups order).map
    (fun set_to_measure => measure d set_to_measure log_base)

/-- A dynamically-typed Python value, as far as the embedded functions inspect
their arguments. -/
inductive PyVal where
  | none
  | int (n : ℤ)
  | float (q : ℚ)
  | str (s : String)
  | list (elems : List PyVal)
  | dist (d : Distribution)

/-- Whether the value is a Distribution. -/
def PyVal.isDist : PyVal → Bool
  | .dist _ => true
  | _ => false

/-- Whether the value is a list. -/
def PyVal.isList : PyVal → Bool
  | .list _ => true
  | _ => false

/-- Whether the value is an int. -/
def PyVal.isInt : PyVal → Bool
  | .int _ => true
  | _ => false

/-- Whether the value is a string. -/
def PyVal.isStr : PyVal → Bool
  | .str _ => true
  | _ => false

/-- Whether the value is a float. -/
def PyVal.isFloat : PyVal → Bool
  | .float _ => true
  | _ => false

/-- Modelled from the spec: a random-variable group argument is read as a
sequence of variable names. -/
def PyVal.asGroup : PyVal → List String
  | .list elems => elems.filterMap (fun v => match v with | .str s => some s | _ => Option.none)
  | _ => []

/-- The log-base argument as a rational number. -/
def PyVal.asBase : PyVal → ℚ
  | .int n => (n : ℚ)
  | .float q => q
  | _ => 0

/-- The argument validation of weakly_shared_content on dynamically-typed
arguments, followed by its computation: a TypeError for a non-distribution,
a non-list group argument or an order that is neither an int nor a string,
a ValueError for a string order other than even or odd. -/
def weakly_shared_content_py (dist : PyVal) (list_of_rv_groups : PyVal)
    (order : PyVal) : Except PyErr (Finset Atom) :=
  match dist with
  | .dist d =>
    match list_of_rv_groups with
    | .list groups =>
      match order with
      | .int n => weakly_shared_content d (groups.map PyVal.asGroup) (.exact n)
      | .str s =>
        if s = "even" then weakly_shared_content d (groups.map PyVal.asGroup) .even
        else if s = "odd" then weakly_shared_content d (groups.map PyVal.asGroup) .odd
        else Except.error (PyErr.valueError msgOrder)
      | _ => Except.error (PyErr.typeError msgOrder)
    | _ => Except.error (PyErr.typeError msgGroups)
  | _ => Except.error (PyErr.typeError msgDist)

/-- The argument validation of weakly_shared on dynamically-typed arguments
(the log-base type check precedes the order value check, as in the source),
followed by its computation through weakly_shared_content and measure. -/
def weakly_shared_py (dist : PyVal) (list_of_rv_groups : PyVal) (order : PyVal)
    (log_base : PyVal) : Except PyErr ℚ :=
  match dist with
  | .dist d =>
    match list_of_rv_groups with
    | .list _ =>
      if order.isInt || order.isStr then
        if log_base.isInt || log_base.isFloat then
          match order with
          | .str s =>
            if s = "even" ∨ s = "odd" then
              (weakly_shared_content_py dist list_of_rv_groups order).map
                (fun set_to_measure => measure d set_to_measure log_base.asBase)
            else Except.error (PyErr.valueError msgOrder)
          | _ =>
            (weakly_shared_content_py dist list_of_rv_groups order).map
              (fun set_to_measure => measure d set_to_measure log_base.asBase)
        else Except.error (PyErr.typeError msgBase)
      else Except.error (PyErr.typeError msgOrder)
    | _ => Except.error (PyErr.typeError msgGroups)
  | _ => Except.error (PyErr.typeError msgDist)

/-- strongly_shared_content(dist, list_of_rv_groups, order): its body is only
a docstring, so every call falls off the end and returns None, with no
argument validation of any kind. -/
def strongly_shared_content (dist : PyVal) (list_of_rv_groups : PyVal)
    (order : PyVal) : Except PyErr PyVal :=
  Except.ok PyVal.none

/-- PID_LogDec._measure(d, sources, target, order, method): the
shared_generator method reshapes the sources into a list of groups, appends
the target as a final group and delegates to weakly_shared (with its default
log base 2); the cross method and any unrecognised method fall through the
end of the function and return None. -/
def PID_LogDec_measure (d : Distribution) (sources : List (List String))
    (target : List String) (order : AtomOrder) (method : String) :
    Except PyErr (Option ℚ) :=
  let source_list : List (List (List String)) := [sources.map (fun x => x)]
  if method = "shared_generator" then
    (weakly_shared d (source_list.headI ++ [target]) order 2).map Option.some
  else if method = "cross" then
    Except.ok Option.none
  else
    Except.ok Option.none

/-- The intersection of the per-group content sets over a nonempty list of
groups, stated as the spec does: pairwise set intersection folded over the
collection of content sets. -/
def contentIntersection (d : Distribution) (g0 : List String)
    (gs : List (List String)) : Finset Atom :=
  (gs.map (fun g => content d g)).foldl (· ∩ ·) (content d g0)

/-- A small concrete distribution over the two variables X and Y. -/
def dXY : Distribution :=
  ⟨["X", "Y"], [(["0", "0"], 1/2), (["1", "1"], 1/2)]⟩

lemma mem_foldl_inter (cs : List (Finset Atom)) (c : Finset Atom) (a : Atom) :
    a ∈ cs.foldl (· ∩ ·) c ↔ a ∈ c ∧ ∀ t ∈ cs, a ∈ t := by
  induction cs generalizing c with
  | nil => simp
  | cons t ts ih =>
    simp only [List.foldl_cons, ih, Finset.mem_inter, List.mem_cons]
    constructor
    · rintro ⟨⟨h1, h2⟩, h3⟩
      refine ⟨h1, fun u hu => ?_⟩
      rcases hu with rfl | hu
      · exact h2
      · exact h3 u hu
    · rintro ⟨h1, h2⟩
      exact ⟨⟨h1, h2 t (Or.inl rfl)⟩, fun u hu => h2 u (Or.inr hu)⟩

lemma mem_inf'_id (S : Finset (Finset Atom)) (h : S.Nonempty) (a : Atom) :
    a ∈ S.inf' h id ↔ ∀ t ∈ S, a ∈ t := by
  rw [← Finset.singleton_subset_iff, ← Finset.le_iff_subset, Finset.le_inf'_iff]
  simp only [id_eq, Finset.le_iff_subset, Finset.singleton_subset_iff]

lemma weakly_shared_content_def (d : Distribution)
    (list_of_rv_groups : List (List String)) (order : AtomOrder) :
    weakly_shared_content d list_of_rv_groups order
      = if h : ((list_of_rv_groups.map (fun group => content d group)).toFinset).Nonempty
        then Except.ok (upper_set d (get_n_atoms
          (((list_of_rv_groups.map (fun group => content d group)).toFinset).inf' h id) order))
        else Except.error (PyErr.keyError msgPop) := rfl

lemma inf'_toFinset_eq_foldl (d : Distribution) (g0 : List String)
    (gs : List (List String))
    (h : (((g0 :: gs).map (fun group => content d group)).toFinset).Nonempty) :
    (((g0 :: gs).map (fun group => content d group)).toFinset).inf' h id
      = contentIntersection d g0 gs := by
  apply Finset.ext
  intro a
  rw [mem_inf'_id, contentIntersection, mem_foldl_inter]
  simp only [List.map_cons, List.mem_toFinset, List.mem_cons, List.mem_map]
  aesop

lemma weakly_shared_content_cons (d : Distribution) (g0 : List String)
    (gs : List (List String)) (order : AtomOrder) :
    weakly_shared_content d (g0 :: gs) order
      = Except.ok (upper_set d (get_n_atoms (contentIntersection d g0 gs) order)) := by
  rw [weakly_shared_content_def]
  have hne : (((g0 :: gs).map (fun group => content d group)).toFinset).Nonempty := by
    simp
  rw [dif_pos hne, inf'_toFinset_eq_foldl]

lemma weakly_shared_content_congr (d : Distribution) (l1 l2 : List (List String))
    (order : AtomOrder)
    (h : (l1.map (fun group => content d group)).toFinset
       = (l2.map (fun group => content d group)).toFinset) :
    weakly_shared_content d l1 order = weakly_shared_content d l2 order := by
  rw [weakly_shared_content_def, weakly_shared_content_def, h]

lemma get_n_atoms_empty (order : AtomOrder) : get_n_atoms ∅ order = ∅ := by
  cases order <;> simp [get_n_atoms]

lemma upper_set_empty (d : Distribution) : upper_set d ∅ = ∅ := by
  simp [upper_set]

lemma measure_empty (d : Distribution) (log_base : ℚ) : measure d ∅ log_base = 0 := by
  simp [measure]

/-- C1: for every distribution, nonempty list of groups and valid order,
weakly_shared_content equals the upper set of get_n_atoms applied to the
intersection of the per-group content sets; in particular on a single-group
list it equals the upper set of get_n_atoms of that group's content. -/
theorem weakly_shared_content_eq_upper_filtered_inter (d : Distribution)
    (g0 : List String) (gs : List (List String)) (order : AtomOrder) :
    weakly_shared_content d (g0 :: gs) order
      = Except.ok (upper_set d (get_n_atoms (contentIntersection d g0 gs) order))
    ∧ weakly_shared_content d [g0] order
      = Except.ok (upper_set d (get_n_atoms (content d g0) order)) :=
  ⟨weakly_shared_content_cons d g0 gs order, weakly_shared_content_cons d g0 [] order⟩

/-- C2: weakly_shared_content is invariant under swapping two groups and, more
generally, under any permutation of the list of groups. -/
theorem weakly_shared_content_comm (d : Distribution) (order : AtomOrder) :
    (∀ g1 g2 : List String,
      weakly_shared_content d [g1, g2] order = weakly_shared_content d [g2, g1] order)
    ∧ ∀ l1 l2 : List (List String), l1.Perm l2 →
      weakly_shared_content d l1 order = weakly_shared_content d l2 order := by
  have perm : ∀ l1 l2 : List (List String), l1.Perm l2 →
      weakly_shared_content d l1 order = weakly_shared_content d l2 order := by
    intro l1 l2 hp
    exact weakly_shared_content_congr d l1 l2 order
      (List.toFinset_eq_of_perm _ _ (hp.map (fun group => content d group)))
  exact ⟨fun g1 g2 => perm _ _ (List.Perm.swap g2 g1 []), perm⟩

/-- Witness for C2 at a concrete two-group input. -/
theorem weakly_shared_content_comm_witness :
    weakly_shared_content dXY [["X"], ["Y"]] (.exact 2)
      = weakly_shared_content dXY [["Y"], ["X"]] (.exact 2) :=
  (weakly_shared_content_comm dXY (.exact 2)).2 _ _ (List.Perm.swap _ _ _)

/-- C5: when two groups have disjoint content sets, weakly_shared_content
returns the upper set of the empty filtered atom set, and weakly_shared
returns 0. -/
theorem weakly_shared_content_disjoint (d : Distribution) (g1 g2 : List String)
    (rest : List (List String)) (order : AtomOrder) (log_base : ℚ)
    (hdisj : content d g1 ∩ content d g2 = ∅) :
    weakly_shared_content d (g1 :: g2 :: rest) order
      = Except.ok (upper_set d (get_n_atoms ∅ order))
    ∧ weakly_shared d (g1 :: g2 :: rest) order log_base = Except.ok 0 := by
  have hinter : contentIntersection d g1 (g2 :: rest) = ∅ := by
    rw [Finset.eq_empty_iff_forall_not_mem]
    intro a ha
    rw [contentIntersection, mem_foldl_inter] at ha
    have h1 : a ∈ content d g1 := ha.1
    have h2 : a ∈ content d g2 := ha.2 (content d g2) (by simp)
    have : a ∈ content d g1 ∩ content d g2 := Finset.mem_inter.mpr ⟨h1, h2⟩
    rw [hdisj] at this
    exact absurd this (Finset.not_mem_empty a)
  have hc : weakly_shared_content d (g1 :: g2 :: rest) order
      = Except.ok (upper_set d (get_n_atoms ∅ order)) := by
    rw [weakly_shared_content_cons, hinter]
  refine ⟨hc, ?_⟩
  rw [weakly_shared, hc]
  simp [Except.map, get_n_atoms_empty, upper_set_empty, measure_empty]

/-- Witness for C5: with one-variable groups X and Y of the concrete
distribution, the contents are disjoint and the shared information is 0. -/
theorem weakly_shared_content_disjoint_witness :
    content dXY ["X"] ∩ content dXY ["Y"] = ∅
    ∧ weakly_shared dXY [["X"], ["Y"]] (.exact 2) 2 = Except.ok 0 :=
  ⟨by decide,
   (weakly_shared_content_disjoint dXY ["X"] ["Y"] [] (.exact 2) 2 (by decide)).2⟩

/-- C6: the PID adapter with the shared_generator method equals weakly_shared
on the source groups with the target appended as a final group. -/
theorem PID_LogDec_measure_shared_generator (d : Distribution)
    (sources : List (List String)) (target : List String) (order : AtomOrder) :
    PID_LogDec_measure d sources target order "shared_generator"
      = (weakly_shared d (sources ++ [target]) order 2).map Option.some := by
  simp [PID_LogDec_measure]

/-- C7: weakly_shared_content and weakly_shared are deterministic pure
functions: identical arguments give equal results, and on a nonempty list of
groups weakly_shared_content returns a set of atoms (never an error and never
None), which weakly_shared then measures. -/
theorem weakly_shared_deterministic (d : Distribution)
    (groups : List (List String)) (order : AtomOrder) (log_base : ℚ)
    (h : groups ≠ []) :
    weakly_shared_content d groups order = weakly_shared_content d groups order
    ∧ weakly_shared d groups order log_base = weakly_shared d groups order log_base
    ∧ ∃ S : Finset Atom, weakly_shared_content d groups order = Except.ok S
      ∧ weakly_shared d groups order log_base = Except.ok (measure d S log_base) := by
  refine ⟨rfl, rfl, ?_⟩
  match groups, h with
  | g0 :: gs, _ =>
    refine ⟨upper_set d (get_n_atoms (contentIntersection d g0 gs) order),
      weakly_shared_content_cons d g0 gs order, ?_⟩
    rw [weakly_shared, weakly_shared_content_cons]
    rfl

/-- Witness for C7 at a concrete single-group input. -/
theorem weakly_shared_deterministic_witness :
    ∃ S : Finset Atom, weakly_shared_content dXY [["X"]] (.exact 2) = Except.ok S
      ∧ weakly_shared dXY [["X"]] (.exact 2) 2 = Except.ok (measure dXY S 2) :=
  (weakly_shared_deterministic dXY [["X"]] (.exact 2) 2 (List.cons_ne_nil _ _)).2.2

/-- C9: appending a group that already occurs in the list does not change
weakly_shared_content, since the content sets are collected into a set of
frozen sets before the intersection. -/
theorem weakly_shared_content_duplicate (d : Distribution)
    (groups : List (List String)) (g : List String) (order : AtomOrder)
    (h : g ∈ groups) :
    weakly_shared_content d (groups ++ [g]) order
      = weakly_shared_content d groups order := by
  apply weakly_shared_content_congr
  rw [List.map_append, List.toFinset_append]
  simp only [List.map_cons, List.map_nil, List.toFinset_cons, List.toFinset_nil,
    insert_emptyc_eq]
  rw [Finset.union_eq_left, Finset.singleton_subset_iff, List.mem_toFinset,
    List.mem_map]
  exact ⟨g, h, rfl⟩

/-- Witness for C9 at a concrete duplicated group. -/
theorem weakly_shared_content_duplicate_witness :
    weakly_shared_content dXY ([["X"]] ++ [["X"]]) (.exact 2)
      = weakly_shared_content dXY [["X"]] (.exact 2) :=
  weakly_shared_content_duplicate dXY [["X"]] ["X"] (.exact 2)
    (List.mem_singleton.mpr rfl)

lemma eq_dist_of_isDist {v : PyVal} (h : v.isDist = true) :
    ∃ d, v = PyVal.dist d := by
  cases v
  case dist d => exact ⟨d, rfl⟩
  all_goals simp [PyVal.isDist] at h

lemma eq_list_of_isList {v : PyVal} (h : v.isList = true) :
    ∃ elems, v = PyVal.list elems := by
  cases v
  case list elems => exact ⟨elems, rfl⟩
  all_goals simp [PyVal.isList] at h

lemma eq_int_of_isInt {v : PyVal} (h : v.isInt = true) :
    ∃ n, v = PyVal.int n := by
  cases v
  case int n => exact ⟨n, rfl⟩
  all_goals simp [PyVal.isInt] at h

lemma eq_float_of_isFloat {v : PyVal} (h : v.isFloat = true) :
    ∃ q, v = PyVal.float q := by
  cases v
  case float q => exact ⟨q, rfl⟩
  all_goals simp [PyVal.isFloat] at h

/-- C3: weakly_shared_content and weakly_shared reject a non-distribution
dist, a non-list group argument and an order that is neither an int nor a
string with a TypeError, and a string order other than even or odd with a
ValueError; weakly_shared additionally rejects a log base that is neither an
int nor a float with a TypeError (checked before the order value); every
rejection happens in the validation prologue, before any computation. -/
theorem weakly_shared_validation (dv gv ov bv : PyVal) :
    (dv.isDist = false →
      weakly_shared_content_py dv gv ov = Except.error (PyErr.typeError msgDist)
      ∧ weakly_shared_py dv gv ov bv = Except.error (PyErr.typeError msgDist))
    ∧ (dv.isDist = true → gv.isList = false →
      weakly_shared_content_py dv gv ov = Except.error (PyErr.typeError msgGroups)
      ∧ weakly_shared_py dv gv ov bv = Except.error (PyErr.typeError msgGroups))
    ∧ (dv.isDist = true → gv.isList = true → ov.isInt = false → ov.isStr = false →
      weakly_shared_content_py dv gv ov = Except.error (PyErr.typeError msgOrder)
      ∧ weakly_shared_py dv gv ov bv = Except.error (PyErr.typeError msgOrder))
    ∧ (∀ s : String, dv.isDist = true → gv.isList = true → ov = PyVal.str s →
      s ≠ "even" → s ≠ "odd" →
      weakly_shared_content_py dv gv ov = Except.error (PyErr.valueError msgOrder)
      ∧ ((bv.isInt = true ∨ bv.isFloat = true) →
        weakly_shared_py dv gv ov bv = Except.error (PyErr.valueError msgOrder)))
    ∧ ((ov.isInt = true ∨ ov.isStr = true) → dv.isDist = true → gv.isList = true →
      bv.isInt = false → bv.isFloat = false →
      weakly_shared_py dv gv ov bv = Except.error (PyErr.typeError msgBase)) := by
  refine ⟨?_, ?_, ?_, ?_, ?_⟩
  · intro h
    cases dv
    case dist d => simp [PyVal.isDist] at h
    all_goals exact ⟨rfl, rfl⟩
  · intro h1 h2
    obtain ⟨d, rfl⟩ := eq_dist_of_isDist h1
    cases gv
    case list gs => simp [PyVal.isList] at h2
    all_goals exact ⟨rfl, rfl⟩
  · intro h1 h2 h3 h4
    obtain ⟨d, rfl⟩ := eq_dist_of_isDist h1
    obtain ⟨gs, rfl⟩ := eq_list_of_isList h2
    cases ov
    case int n => simp [PyVal.isInt] at h3
    case str s => simp [PyVal.isStr] at h4
    all_goals exact ⟨rfl, rfl⟩
  · intro s h1 h2 hov hse hso
    obtain ⟨d, rfl⟩ := eq_dist_of_isDist h1
    obtain ⟨gs, rfl⟩ := eq_list_of_isList h2
    subst hov
    constructor
    · simp only [weakly_shared_content_py]
      rw [if_neg hse, if_neg hso]
    · intro hbv
      rcases hbv with hb | hb
      · obtain ⟨n, rfl⟩ := eq_int_of_isInt hb
        simp [weakly_shared_py, hse, hso, PyVal.isInt, PyVal.isStr, PyVal.isFloat]
      · obtain ⟨q, rfl⟩ := eq_float_of_isFloat hb
        simp [weakly_shared_py, hse, hso, PyVal.isInt, PyVal.isStr, PyVal.isFloat]
  · intro hov h1 h2 hb1 hb2
    obtain ⟨d, rfl⟩ := eq_dist_of_isDist h1
    obtain ⟨gs, rfl⟩ := eq_list_of_isList h2
    have hbv : (bv.isInt || bv.isFloat) = false := by rw [hb1, hb2]; rfl
    have hov2 : (ov.isInt || ov.isStr) = true := by
      rcases hov with h | h <;> simp [h]
    simp [weakly_shared_py, hov2, hbv]

/-- Witness for C3 at concrete invalid arguments of each kind. -/
theorem weakly_shared_validation_witness :
    weakly_shared_content_py (PyVal.int 0) (PyVal.list []) (PyVal.int 2)
      = Except.error (PyErr.typeError msgDist)
    ∧ weakly_shared_py (PyVal.dist dXY) (PyVal.str "nope") (PyVal.int 2) (PyVal.int 2)
      = Except.error (PyErr.typeError msgGroups)
    ∧ weakly_shared_py (PyVal.dist dXY) (PyVal.list []) PyVal.none (PyVal.int 2)
      = Except.error (PyErr.typeError msgOrder)
    ∧ weakly_shared_py (PyVal.dist dXY) (PyVal.list []) (PyVal.str "bogus") (PyVal.int 2)
      = Except.error (PyErr.valueError msgOrder)
    ∧ weakly_shared_py (PyVal.dist dXY) (PyVal.list []) (PyVal.int 2) (PyVal.str "x")
      = Except.error (PyErr.typeError msgBase) :=
  ⟨((weakly_shared_validation (PyVal.int 0) (PyVal.list []) (PyVal.int 2)
      (PyVal.int 2)).1 rfl).1,
   ((weakly_shared_validation (PyVal.dist dXY) (PyVal.str "nope") (PyVal.int 2)
      (PyVal.int 2)).2.1 rfl rfl).2,
   ((weakly_shared_validation (PyVal.dist dXY) (PyVal.list []) PyVal.none
      (PyVal.int 2)).2.2.1 rfl rfl rfl rfl).2,
   ((weakly_shared_validation (PyVal.dist dXY) (PyVal.list []) (PyVal.str "bogus")
      (PyVal.int 2)).2.2.2.1 "bogus" rfl rfl rfl (by decide) (by decide)).2
      (Or.inl rfl),
   (weakly_shared_validation (PyVal.dist dXY) (PyVal.list []) (PyVal.int 2)
      (PyVal.str "x")).2.2.2.2 (Or.inl rfl) rfl rfl rfl rfl⟩

/-- C8: with a valid distribution and a valid order but the empty list of
groups, weakly_shared_content passes all type and value validation and then
fails with a KeyError from popping an empty set, never reported as a
TypeError or a ValueError. -/
theorem weakly_shared_content_empty_groups (d : Distribution) (ov : PyVal)
    (hov : (∃ n, ov = PyVal.int n) ∨ ov = PyVal.str "even" ∨ ov = PyVal.str "odd") :
    weakly_shared_content_py (PyVal.dist d) (PyVal.list []) ov
      = Except.error (PyErr.keyError msgPop)
    ∧ ∀ msg : String,
      weakly_shared_content_py (PyVal.dist d) (PyVal.list []) ov
        ≠ Except.error (PyErr.typeError msg)
      ∧ weakly_shared_content_py (PyVal.dist d) (PyVal.list []) ov
        ≠ Except.error (PyErr.valueError msg) := by
  have hkey : weakly_shared_content_py (PyVal.dist d) (PyVal.list []) ov
      = Except.error (PyErr.keyError msgPop) := by
    rcases hov with ⟨n, rfl⟩ | rfl | rfl <;>
      simp [weakly_shared_content_py, weakly_shared_content_def]
  exact ⟨hkey, fun msg => ⟨by rw [hkey]; simp, by rw [hkey]; simp⟩⟩

/-- Witness for C8 at a concrete valid order. -/
theorem weakly_shared_content_empty_groups_witness :
    weakly_shared_content_py (PyVal.dist dXY) (PyVal.list []) (PyVal.int 2)
      = Except.error (PyErr.keyError msgPop) :=
  (weakly_shared_content_empty_groups dXY (PyVal.int 2) (Or.inl ⟨2, rfl⟩)).1

/-- C10: strongly_shared_content performs no validation whatsoever: it
returns None for every combination of arguments and never raises. -/
theorem strongly_shared_content_returns_none (dv gv ov : PyVal) :
    strongly_shared_content dv gv ov = Except.ok PyVal.none
    ∧ ∀ e : PyErr, strongly_shared_content dv gv ov ≠ Except.error e :=
  ⟨rfl, fun e => by simp [strongly_shared_content]⟩

/-- Witness for C10 at concrete ill-typed arguments. -/
theorem strongly_shared_content_returns_none_witness :
    strongly_shared_content (PyVal.int 0) (PyVal.str "x") PyVal.none
      = Except.ok PyVal.none :=
  (strongly_shared_content_returns_none (PyVal.int 0) (PyVal.str "x") PyVal.none).1

/-- C4: contrary to the intended explicit not-implemented report, the cross
method of the PID adapter and strongly_shared_content silently return None
at concrete well-formed inputs. -/
theorem cross_and_strongly_shared_silent_none :
    PID_LogDec_measure dXY [["X"]] ["Y"] (.exact 2) "cross" = Except.ok Option.none
    ∧ strongly_shared_content (PyVal.dist dXY)
        (PyVal.list [PyVal.list [PyVal.str "X"], PyVal.list [PyVal.str "Y"]])
        (PyVal.int 2)
      = Except.ok PyVal.none :=
  ⟨rfl, rfl⟩

end Dit
